import Mathlib

/-!
Verification development for the rl4water simulation core.

Shallow embedding conventions:
* Python floats are modelled as exact rationals (`ℚ`).
* Dates are rationals (seconds since an arbitrary epoch); `relativedelta`
  timestep sizes are rational durations in seconds, matching the source's
  use of `total_seconds()` for all arithmetic on them.
* Mutation is explicit state passing: each mutating method returns the
  updated structure together with its Python return value.
* The reservoir's `while current_date < final_date` loop is driven by a
  fuel parameter set to `⌈(final_date - current_date) / inc⌉`; a lemma shows
  this fuel always suffices when the sub-step size is positive, so the loop
  exits through its guard exactly as the Python loop does.
* Python list indexing that would raise `IndexError` on a missing element
  is modelled with `getD`/`getLastD` defaults; every claim below only
  exercises states where the element exists, as the source's callers do.
* `np.mean` of a list is its sum divided by its length (the empty case,
  NaN in numpy, is never reached by the claims, which have at least one
  sub-increment).
-/

/-- Inner segment walk of numpy's `interp`: given the previous breakpoint
`(x0, y0)` and the remaining breakpoints, linearly interpolate `x`
(assumed `x0 ≤ x`) on the first segment whose right endpoint is `≥ x`,
falling back to the last `y` when `x` is beyond every breakpoint. -/
def interpSegs (x : ℚ) : ℚ → ℚ → List (ℚ × ℚ) → ℚ
  | _, y0, [] => y0
  | x0, y0, (x1, y1) :: rest =>
    if x ≤ x1 then y0 + (y1 - y0) * (x - x0) / (x1 - x0)
    else interpSegs x x1 y1 rest

/-- Last breakpoint of the curve with head `(x0, y0)` and tail `rest`. -/
def lastPair (x0 y0 : ℚ) (rest : List (ℚ × ℚ)) : ℚ × ℚ :=
  rest.getLastD (x0, y0)

/-- Model of `Reservoir.modified_interp` / `np.interp`: piecewise-linear lookup on the
breakpoints `xp` (strictly increasing) with values `fp`; queries left of the
first breakpoint return `left` (default: the first `y`), queries right of the
last breakpoint return `right` (default: the last `y`).  The empty-curve
case (a `ValueError` in numpy) returns 0 and is never exercised. -/
def modified_interp (x : ℚ) (xp fp : List ℚ) (left right : Option ℚ) : ℚ :=
  match xp, fp with
  | x0 :: xrest, y0 :: yrest =>
    let rest := xrest.zip yrest
    if x < x0 then left.getD y0
    else if (lastPair x0 y0 rest).1 < x then right.getD (lastPair x0 y0 rest).2
    else interpSegs x x0 y0 rest
  | _, _ => 0

/-- Model of `Facility.set_inflow` / `ControlledFacility.set_inflow` (both classes have
the same three-way branch): append when writing one past the end, accumulate
into an existing slot, raise `IndexError` otherwise.  The raising branch
returns an error without touching the ledger, matching the Python exception
being thrown before any mutation. -/
def set_inflow (all_inflow : List ℚ) (timestep : ℕ) (inflow : ℚ) :
    Except String (List ℚ) :=
  if all_inflow.length = timestep then
    Except.ok (all_inflow ++ [inflow])
  else if timestep < all_inflow.length then
    Except.ok (all_inflow.set timestep (all_inflow.getD timestep 0 + inflow))
  else
    Except.error "IndexError"

/-- State of `core.models.reservoir.Reservoir`.  The gymnasium
observation/action space descriptors are not part of the dynamics; the only
fact derived from them, `should_split_release = (np.prod(action_space.shape)
> 1)`, is kept as a stored flag. -/
structure Reservoir where
  name : String
  max_capacity : ℚ
  stored_water : ℚ
  evap_rates : List ℚ
  storage_to_minmax_rel : List ℚ × List ℚ × List ℚ
  storage_to_level_rel : List ℚ × List ℚ
  storage_to_surface_rel : List ℚ × List ℚ
  storage_vector : List ℚ
  level_vector : List ℚ
  release_vector : List ℚ
  all_inflow : List ℚ
  all_outflow : List ℚ
  timestep : ℕ
  current_date : ℚ
  timestep_size : ℚ
  integration_timestep_size : ℚ
  objective_function : ℚ → ℚ
  objective_name : String
  should_split_release : Bool
  split_release : Option (List ℚ)

/-- Model of `Reservoir.__init__`: histories empty except the storage vector, which is
seeded with the initial storage; the clock fields (`None` in Python until the
orchestrator assigns them) start at 0. -/
def Reservoir.init (name : String) (objective_function : ℚ → ℚ)
    (integration_timestep_size : ℚ) (evap_rates : List ℚ)
    (storage_to_minmax_rel : List ℚ × List ℚ × List ℚ)
    (storage_to_level_rel storage_to_surface_rel : List ℚ × List ℚ)
    (objective_name : String) (max_capacity : ℚ) (stored_water : ℚ)
    (should_split_release : Bool) : Reservoir :=
  { name := name
    max_capacity := max_capacity
    stored_water := stored_water
    evap_rates := evap_rates
    storage_to_minmax_rel := storage_to_minmax_rel
    storage_to_level_rel := storage_to_level_rel
    storage_to_surface_rel := storage_to_surface_rel
    storage_vector := [stored_water]
    level_vector := []
    release_vector := []
    all_inflow := []
    all_outflow := []
    timestep := 0
    current_date := 0
    timestep_size := 0
    integration_timestep_size := integration_timestep_size
    objective_function := objective_function
    objective_name := objective_name
    should_split_release := should_split_release
    split_release := none }

def Reservoir.determine_month (res : Reservoir) : ℕ :=
  res.timestep % 12

def Reservoir.storage_to_level (res : Reservoir) (s : ℚ) : ℚ :=
  modified_interp s res.storage_to_level_rel.1 res.storage_to_level_rel.2 none none

def Reservoir.storage_to_surface (res : Reservoir) (s : ℚ) : ℚ :=
  modified_interp s res.storage_to_surface_rel.1 res.storage_to_surface_rel.2 none none

def Reservoir.storage_to_minmax (res : Reservoir) (s : ℚ) : ℚ × ℚ :=
  (modified_interp s res.storage_to_minmax_rel.1 res.storage_to_minmax_rel.2.1 none none,
   modified_interp s res.storage_to_minmax_rel.1 res.storage_to_minmax_rel.2.2 none none)

def Reservoir.get_inflow (res : Reservoir) (timestep : ℕ) : ℚ :=
  res.all_inflow.getD timestep 0

def Reservoir.is_terminated (res : Reservoir) : Bool :=
  decide (res.stored_water > res.max_capacity ∨ res.stored_water < 0)

def Reservoir.determine_observation (res : Reservoir) : ℚ :=
  res.stored_water

def Reservoir.determine_reward (res : Reservoir) : ℚ :=
  res.objective_function (res.storage_to_level res.stored_water)

/-- End of the macro timestep: `current_date + timestep_size`. -/
def Reservoir.final_date (res : Reservoir) : ℚ :=
  res.current_date + res.timestep_size

/-- Value `evap_rates[month] / (100 * timestep_seconds)` computed once before the
sub-step loop. -/
def Reservoir.evaporation_rate_per_second (res : Reservoir) : ℚ :=
  res.evap_rates.getD res.determine_month 0 / (100 * (res.final_date - res.current_date))

/-- Iteration bound for the sub-step loop: the number of increments of size
`integration_timestep_size` needed to cover the macro timestep. -/
def Reservoir.loopFuel (res : Reservoir) : ℕ :=
  (⌈(res.final_date - res.current_date) / res.integration_timestep_size⌉).toNat

/-- The `while self.current_date < final_date` loop of
`Reservoir.determine_outflow`, written with explicit state
`(current_date, current_storage, sub_releases)` and a fuel bound.
Each pass advances the date by at most one integration timestep (truncated to
land on `final_date`), computes surface area, evaporation, the feasible
release bounds at the current storage, clamps the total action into them,
and updates the storage by inflow minus evaporation minus release volume. -/
def resLoop (res : Reservoir)
    (evaporation_rate_per_second inflow total_action final_date : ℚ) :
    ℕ → ℚ → ℚ → List ℚ → ℚ × ℚ × List ℚ
  | 0, current_date, current_storage, sub_releases =>
    (current_date, current_storage, sub_releases)
  | fuel + 1, current_date, current_storage, sub_releases =>
    if current_date < final_date then
      let next_date := min final_date (current_date + res.integration_timestep_size)
      let integration_time_seconds := next_date - current_date
      let surface := res.storage_to_surface current_storage
      let evaporation := surface * (evaporation_rate_per_second * integration_time_seconds)
      let minmax := res.storage_to_minmax current_storage
      let release_per_second := min minmax.2 (max minmax.1 total_action)
      let total_addition := inflow * integration_time_seconds
      resLoop res evaporation_rate_per_second inflow total_action final_date fuel
        next_date
        (current_storage + total_addition - evaporation - release_per_second * integration_time_seconds)
        (sub_releases ++ [release_per_second])
    else (current_date, current_storage, sub_releases)

/-- Specification companion of `resLoop`: the storages at the start of each
sub-increment (the values at which the source evaluates the surface and the
feasible release bounds).  Same recursion, ghost output only. -/
def resLoopStorages (res : Reservoir)
    (evaporation_rate_per_second inflow total_action final_date : ℚ) :
    ℕ → ℚ → ℚ → List ℚ
  | 0, _, _ => []
  | fuel + 1, current_date, current_storage =>
    if current_date < final_date then
      let next_date := min final_date (current_date + res.integration_timestep_size)
      let integration_time_seconds := next_date - current_date
      let surface := res.storage_to_surface current_storage
      let evaporation := surface * (evaporation_rate_per_second * integration_time_seconds)
      let minmax := res.storage_to_minmax current_storage
      let release_per_second := min minmax.2 (max minmax.1 total_action)
      let total_addition := inflow * integration_time_seconds
      current_storage ::
        resLoopStorages res evaporation_rate_per_second inflow total_action final_date fuel
          next_date
          (current_storage + total_addition - evaporation - release_per_second * integration_time_seconds)
    else []

/-- `Reservoir.determine_outflow`: run the mass-balance sub-step loop over one
macro timestep, append the final storage, the derived level and the average
(sub-increment mean) release to the histories, record the per-component
release split when the action has several components with nonzero sum, and
return the average release. -/
def Reservoir.determine_outflow (res : Reservoir) (actions : List ℚ) : Reservoir × ℚ :=
  let total_action := actions.sum
  let current_storage := res.storage_vector.getLastD 0
  let out := resLoop res res.evaporation_rate_per_second (res.get_inflow res.timestep)
    total_action res.final_date res.loopFuel res.current_date current_storage []
  let average_release := out.2.2.sum / (out.2.2.length : ℚ)
  ({ res with
      current_date := out.1
      storage_vector := res.storage_vector ++ [out.2.1]
      stored_water := out.2.1
      level_vector := res.level_vector ++ [res.storage_to_level out.2.1]
      release_vector := res.release_vector ++ [average_release]
      split_release :=
        if res.should_split_release ∧ total_action ≠ 0 then
          some (actions.map (fun a => a / total_action))
        else res.split_release },
   average_release)

/-- Storages visited by `determine_outflow` at the start of each
sub-increment (specification helper, same derived parameters as
`determine_outflow`). -/
def Reservoir.sub_storages (res : Reservoir) (actions : List ℚ) : List ℚ :=
  resLoopStorages res res.evaporation_rate_per_second (res.get_inflow res.timestep)
    actions.sum res.final_date res.loopFuel res.current_date
    (res.storage_vector.getLastD 0)

/-- The per-increment clamped releases computed by `determine_outflow`. -/
def Reservoir.sub_releases (res : Reservoir) (actions : List ℚ) : List ℚ :=
  (resLoop res res.evaporation_rate_per_second (res.get_inflow res.timestep)
    actions.sum res.final_date res.loopFuel res.current_date
    (res.storage_vector.getLastD 0) []).2.2

/-- Model of `ControlledFacility.step` specialised to `Reservoir`: compute the outflow
(mutating the histories), append it to the outflow ledger, read observation,
reward and the termination verdict from the updated state, and advance the
local step counter.  Returns
`(state, observation, reward, terminated, truncated)`. -/
def Reservoir.step (res : Reservoir) (action : List ℚ) :
    Reservoir × ℚ × ℚ × Bool × Bool :=
  let out := res.determine_outflow action
  let res1 := { out.1 with all_outflow := out.1.all_outflow ++ [out.2] }
  let observation := res1.determine_observation
  let reward := res1.determine_reward
  let terminated := res1.is_terminated
  let truncated := false
  ({ res1 with timestep := res1.timestep + 1 }, observation, reward, terminated, truncated)

/-- Model of `Reservoir.reset`: zero the ledgers and the step counter (the
`ControlledFacility.reset` part), then re-seed the storage vector with its
episode-zero head and clear the level/release histories. -/
def Reservoir.reset (res : Reservoir) : Reservoir :=
  let stored_water := res.storage_vector.headD 0
  { res with
      timestep := 0
      all_inflow := []
      all_outflow := []
      storage_vector := [stored_water]
      stored_water := stored_water
      level_vector := []
      release_vector := [] }

/-- Constant `scipy.constants.g = 9.80665`. -/
def gravity : ℚ := 980665 / 100000

/-- State of `core.models.power_plant.PowerPlant`.  The Python object holds a
non-owning reference to its reservoir; here it holds the reservoir's name and
the orchestrator resolves it against the current node list, which matches the
aliased read of the up-to-date reservoir state. -/
structure PowerPlant where
  name : String
  objective_function : ℚ → ℚ
  objective_name : String
  efficiency : ℚ
  min_turbine_flow : ℚ
  max_turbine_flow : ℚ
  head_start_level : ℚ
  max_capacity : ℚ
  reservoir_name : String
  water_usage : ℚ
  production_vector : List ℚ
  all_inflow : List ℚ
  all_outflow : List ℚ
  timestep : ℕ
  current_date : ℚ
  timestep_size : ℚ

def PowerPlant.get_inflow (p : PowerPlant) (timestep : ℕ) : ℚ :=
  p.all_inflow.getD timestep 0

/-- Value `max(min_turbine_flow, min(max_turbine_flow, inflow))`. -/
def PowerPlant.determine_turbine_flow (p : PowerPlant) : ℚ :=
  max p.min_turbine_flow (min p.max_turbine_flow (p.get_inflow p.timestep))

/-- Model of `PowerPlant.determine_production`: power (MW) is the rated-capacity cap of
turbine flow × head × 1000 × g × efficiency × 1e-6, where the head is the
nonnegative part of the reservoir's most recent level minus
`head_start_level` (level 0 when the reservoir has no recorded level);
production (MWh) multiplies by the hours in the current timestep and is
appended to the production history. -/
def PowerPlant.determine_production (p : PowerPlant)
    (reservoir_level_vector : List ℚ) : PowerPlant × ℚ :=
  let m3_to_kg_factor : ℚ := 1000
  let w_mw_conversion : ℚ := 1 / 1000000
  let turbine_flow := p.determine_turbine_flow
  let water_level := reservoir_level_vector.getLastD 0
  let head := max 0 (water_level - p.head_start_level)
  let power_in_mw :=
    min p.max_capacity (turbine_flow * head * m3_to_kg_factor * gravity * p.efficiency * w_mw_conversion)
  let timestep_hours := (p.current_date + p.timestep_size - p.current_date) / 3600
  let production := power_in_mw * timestep_hours
  ({ p with production_vector := p.production_vector ++ [production] }, production)

def PowerPlant.determine_reward (p : PowerPlant)
    (reservoir_level_vector : List ℚ) : PowerPlant × ℚ :=
  let out := p.determine_production reservoir_level_vector
  (out.1, p.objective_function out.2)

def PowerPlant.determine_consumption (p : PowerPlant) : ℚ :=
  p.determine_turbine_flow * p.water_usage

def PowerPlant.determine_outflow (p : PowerPlant) : ℚ :=
  p.get_inflow p.timestep - p.determine_consumption

/-- Model of `Facility.step` specialised to `PowerPlant` (observation slot is `None`
for passive facilities, so it is omitted here):
`(state, reward, terminated, truncated)`. -/
def PowerPlant.step (p : PowerPlant) (reservoir_level_vector : List ℚ) :
    PowerPlant × ℚ × Bool × Bool :=
  let p1 := { p with all_outflow := p.all_outflow ++ [p.determine_outflow] }
  let out := p1.determine_reward reservoir_level_vector
  ({ out.1 with timestep := out.1.timestep + 1 }, out.2, false, false)

def PowerPlant.reset (p : PowerPlant) : PowerPlant :=
  { p with timestep := 0, all_inflow := [], all_outflow := [], production_vector := [] }

/-- State of `core.models.irrigation_district.IrrigationDistrict`. -/
structure IrrigationDistrict where
  name : String
  all_demand : List ℚ
  objective_function : ℚ → ℚ → ℚ
  objective_name : String
  total_deficit : ℚ
  all_deficit : List ℚ
  all_inflow : List ℚ
  all_outflow : List ℚ
  timestep : ℕ
  current_date : ℚ
  timestep_size : ℚ

def IrrigationDistrict.get_inflow (d : IrrigationDistrict) (timestep : ℕ) : ℚ :=
  d.all_inflow.getD timestep 0

/-- Value `all_demand[timestep % len(all_demand)]`. -/
def IrrigationDistrict.get_current_demand (d : IrrigationDistrict) : ℚ :=
  d.all_demand.getD (d.timestep % d.all_demand.length) 0

def IrrigationDistrict.determine_consumption (d : IrrigationDistrict) : ℚ :=
  min d.get_current_demand (d.get_inflow d.timestep)

/-- Model of `IrrigationDistrict.determine_deficit`: deficit = demand − consumption,
pushed onto the deficit history and added to the running total. -/
def IrrigationDistrict.determine_deficit (d : IrrigationDistrict) :
    IrrigationDistrict × ℚ :=
  let deficit := d.get_current_demand - d.determine_consumption
  ({ d with
      total_deficit := d.total_deficit + deficit
      all_deficit := d.all_deficit ++ [deficit] },
   deficit)

def IrrigationDistrict.determine_reward (d : IrrigationDistrict) : ℚ :=
  d.objective_function d.get_current_demand (d.get_inflow d.timestep)

def IrrigationDistrict.is_truncated (d : IrrigationDistrict) : Bool :=
  decide (d.all_demand.length ≤ d.timestep)

def IrrigationDistrict.determine_outflow (d : IrrigationDistrict) : ℚ :=
  d.get_inflow d.timestep - d.determine_consumption

/-- Model of `Facility.step` specialised to `IrrigationDistrict`:
`(state, reward, terminated, truncated)`. -/
def IrrigationDistrict.step (d : IrrigationDistrict) :
    IrrigationDistrict × ℚ × Bool × Bool :=
  let d1 := { d with all_outflow := d.all_outflow ++ [d.determine_outflow] }
  let reward := d1.determine_reward
  let truncated := d1.is_truncated
  ({ d1 with timestep := d1.timestep + 1 }, reward, false, truncated)

def IrrigationDistrict.reset (d : IrrigationDistrict) : IrrigationDistrict :=
  { d with
      timestep := 0
      all_inflow := []
      all_outflow := []
      total_deficit := 0
      all_deficit := [] }

/-- Closed sum of the node kinds defined under `src/` (the `Flow` routing
edge lives in an external collaborator module and carries no claim). -/
inductive Node where
  | reservoir (r : Reservoir)
  | powerPlant (p : PowerPlant)
  | irrigationDistrict (d : IrrigationDistrict)

def Node.name : Node → String
  | .reservoir r => r.name
  | .powerPlant p => p.name
  | .irrigationDistrict d => d.name

def Node.objective_name : Node → String
  | .reservoir r => r.objective_name
  | .powerPlant p => p.objective_name
  | .irrigationDistrict d => d.objective_name

def Node.timestep : Node → ℕ
  | .reservoir r => r.timestep
  | .powerPlant p => p.timestep
  | .irrigationDistrict d => d.timestep

def Node.all_outflow : Node → List ℚ
  | .reservoir r => r.all_outflow
  | .powerPlant p => p.all_outflow
  | .irrigationDistrict d => d.all_outflow

def Node.storage_vector : Node → List ℚ
  | .reservoir r => r.storage_vector
  | _ => []

def Node.level_vector : Node → List ℚ
  | .reservoir r => r.level_vector
  | _ => []

def Node.release_vector : Node → List ℚ
  | .reservoir r => r.release_vector
  | _ => []

def Node.set_current_date (n : Node) (date : ℚ) : Node :=
  match n with
  | .reservoir r => .reservoir { r with current_date := date }
  | .powerPlant p => .powerPlant { p with current_date := date }
  | .irrigationDistrict d => .irrigationDistrict { d with current_date := date }

def Node.set_timestep_size (n : Node) (size : ℚ) : Node :=
  match n with
  | .reservoir r => .reservoir { r with timestep_size := size }
  | .powerPlant p => .powerPlant { p with timestep_size := size }
  | .irrigationDistrict d => .irrigationDistrict { d with timestep_size := size }

def Node.reset : Node → Node
  | .reservoir r => .reservoir r.reset
  | .powerPlant p => .powerPlant p.reset
  | .irrigationDistrict d => .irrigationDistrict d.reset

/-- Resolve a power plant's reservoir reference against the current node
list (the Python object reference always reads the reservoir's current,
possibly already-stepped, state). -/
def findReservoirLevels (nodes : List Node) (rname : String) : List ℚ :=
  (nodes.findSome? (fun n =>
    match n with
    | .reservoir r => if r.name = rname then some r.level_vector else none
    | _ => none)).getD []

/-- One node's step, dispatched by kind as the orchestrator's
`isinstance` chain does.  Returns
`(node, observation?, reward, terminated, truncated)`; only controlled
facilities (reservoirs) produce an observation. -/
def Node.step (n : Node) (action : String → List ℚ) (env : List Node) :
    Node × Option ℚ × ℚ × Bool × Bool :=
  match n with
  | .reservoir r =>
    let out := r.step (action r.name)
    (.reservoir out.1, some out.2.1, out.2.2.1, out.2.2.2.1, out.2.2.2.2)
  | .powerPlant p =>
    let out := p.step (findReservoirLevels env p.reservoir_name)
    (.powerPlant out.1, none, out.2.1, out.2.2.1, out.2.2.2)
  | .irrigationDistrict d =>
    let out := d.step
    (.irrigationDistrict out.1, none, out.2.1, out.2.2.1, out.2.2.2)

/-- Ordered association update: replace the value under `k`, appending a new
entry when the key is absent (Python dict assignment). -/
def assocSet (l : List (String × ℚ)) (k : String) (v : ℚ) : List (String × ℚ) :=
  match l with
  | [] => [(k, v)]
  | (k0, v0) :: rest =>
    if k0 = k then (k0, v) :: rest else (k0, v0) :: assocSet rest k v

/-- Ordered association accumulate: add `v` into the slot under `k`.
`final_reward[name] += reward` raises `KeyError` when the objective name is
not a reward bucket; all claims keep the buckets present, so the absent-key
case is a no-op here. -/
def assocAdd (l : List (String × ℚ)) (k : String) (v : ℚ) : List (String × ℚ) :=
  match l with
  | [] => []
  | (k0, v0) :: rest =>
    if k0 = k then (k0, v0 + v) :: rest else (k0, v0) :: assocAdd rest k v

/-- State of `core.envs.water_management_system.WaterManagementSystem`. -/
structure WaterManagementSystem where
  water_systems : List Node
  rewards : List (String × ℚ)
  start_date : ℚ
  current_date : ℚ
  timestep_size : ℚ
  timestep : ℕ
  observation : List ℚ

/-- Model of `_determine_observation`: the controlled facilities' observations in
list order. -/
def determineObservationList (nodes : List Node) : List ℚ :=
  nodes.filterMap (fun n =>
    match n with
    | .reservoir r => some r.determine_observation
    | _ => none)

/-- Model of `WaterManagementSystem.__init__`: capture the initial observation and
push the shared clock onto every node. -/
def WaterManagementSystem.init (water_systems : List Node)
    (rewards : List (String × ℚ)) (start_date timestep_size : ℚ) :
    WaterManagementSystem :=
  { water_systems :=
      water_systems.map (fun n => (n.set_current_date start_date).set_timestep_size timestep_size)
    rewards := rewards
    start_date := start_date
    current_date := start_date
    timestep_size := timestep_size
    timestep := 0
    observation := determineObservationList water_systems }

/-- Model of `WaterManagementSystem.reset`.  Note the source computes the returned
observation from the node states BEFORE resetting the nodes (line 79 runs
before the reset loop of lines 84-86); the embedding reproduces that order.
Returns `(state, observation)`. -/
def WaterManagementSystem.reset (wms : WaterManagementSystem) :
    WaterManagementSystem × List ℚ :=
  let observation := determineObservationList wms.water_systems
  ({ wms with
      current_date := wms.start_date
      timestep := 0
      observation := observation
      rewards := wms.rewards.map (fun kv => (kv.1, 0))
      water_systems :=
        wms.water_systems.map (fun n => (n.set_current_date wms.start_date).reset) },
   observation)

/-- The per-node loop of `WaterManagementSystem.step`: process the remaining
nodes in list order, pushing each node's view of the clock, collecting
observations and per-objective rewards, OR-accumulating the termination and
truncation flags, and breaking out as soon as either flag is set. -/
def stepLoop (date : ℚ) (action : String → List ℚ) :
    List Node → List Node → List (String × ℚ) → List (String × ℚ) → Bool → Bool →
    List Node × List (String × ℚ) × List (String × ℚ) × Bool × Bool
  | processed, [], observations, rewards, terminated, truncated =>
    (processed, observations, rewards, terminated, truncated)
  | processed, node :: rest, observations, rewards, terminated, truncated =>
    let node1 := node.set_current_date date
    let out := node1.step action (processed ++ node1 :: rest)
    let stepped := out.1
    let observations1 :=
      match out.2.1 with
      | some v => assocSet observations stepped.name v
      | none => observations
    let rewards1 :=
      if stepped.objective_name ≠ "" then assocAdd rewards stepped.objective_name out.2.2.1
      else rewards
    let terminated1 := terminated || out.2.2.2.1
    let truncated1 := truncated || out.2.2.2.2
    if terminated1 || truncated1 then
      (processed ++ stepped :: rest, observations1, rewards1, terminated1, truncated1)
    else
      stepLoop date action (processed ++ [stepped]) rest observations1 rewards1 terminated1 truncated1

/-- Model of `WaterManagementSystem.step`: run the node loop, then advance the global
step counter and the clock by one timestep.  Returns
`(state, observations, rewards, terminated, truncated)` with the observation
and reward maps flattened to their value vectors. -/
def WaterManagementSystem.step (wms : WaterManagementSystem)
    (action : String → List ℚ) :
    WaterManagementSystem × List ℚ × List ℚ × Bool × Bool :=
  let final_reward := wms.rewards.map (fun kv => (kv.1, (0 : ℚ)))
  let out := stepLoop wms.current_date action [] wms.water_systems [] final_reward false false
  ({ wms with
      water_systems := out.1
      timestep := wms.timestep + 1
      current_date := wms.current_date + wms.timestep_size },
   out.2.1.map Prod.snd, out.2.2.1.map Prod.snd, out.2.2.2.1, out.2.2.2.2)

/-- Specification companion of `stepLoop`: how many nodes of `remaining` the
loop steps before it returns (all of them, or the prefix up to and including
the first node whose step reports termination or truncation). -/
def stepLoopCount (date : ℚ) (action : String → List ℚ) :
    List Node → List Node → Bool → Bool → ℕ
  | _, [], _, _ => 0
  | processed, node :: rest, terminated, truncated =>
    let node1 := node.set_current_date date
    let out := node1.step action (processed ++ node1 :: rest)
    let terminated1 := terminated || out.2.2.2.1
    let truncated1 := truncated || out.2.2.2.2
    if terminated1 || truncated1 then 1
    else stepLoopCount date action (processed ++ [out.1]) rest terminated1 truncated1 + 1

/-- Number of nodes stepped by `WaterManagementSystem.step`. -/
def WaterManagementSystem.stepCount (wms : WaterManagementSystem)
    (action : String → List ℚ) : ℕ :=
  stepLoopCount wms.current_date action [] wms.water_systems false false

/-- The spec's end-to-end scenario: a reservoir with a linear 0→100 m level
curve over 0→1000 m³, constant feasible release bounds [0, 50], zero
evaporation, constant inflow 30 m³/s, a 1-hour macro timestep and 15-minute
sub-steps. -/
def exampleReservoir : Reservoir :=
  { Reservoir.init "reservoir" (fun _ => 0) 900
      [0, 0, 0, 0, 0, 0, 0, 0, 0, 0, 0, 0]
      ([0, 1000], [0, 0], [50, 50])
      ([0, 1000], [0, 100])
      ([0, 1000], [0, 10])
      "" 1000000 100 false with
    timestep_size := 3600
    all_inflow := [30] }

/-- A one-reservoir system around `exampleReservoir` (the inflow slot plays
the role of the upstream `Inflow` routing edge's write). -/
def exampleSystem : WaterManagementSystem :=
  WaterManagementSystem.init [Node.reservoir exampleReservoir] [("objective", 0)] 0 3600

/-- A one-district system whose step raises no termination flag. -/
def exampleDistrict : IrrigationDistrict :=
  { name := "district"
    all_demand := [5]
    objective_function := fun _ _ => 0
    objective_name := ""
    total_deficit := 0
    all_deficit := []
    all_inflow := []
    all_outflow := []
    timestep := 0
    current_date := 0
    timestep_size := 1 }

def exampleDistrictSystem : WaterManagementSystem :=
  WaterManagementSystem.init [Node.irrigationDistrict exampleDistrict] [] 0 1

/-- The irrigation example of the spec: demand schedule [100, 80] with
inflows [60, 90]. -/
def exampleDeficitDistrict : IrrigationDistrict :=
  { name := "district"
    all_demand := [100, 80]
    objective_function := fun _ _ => 0
    objective_name := ""
    total_deficit := 0
    all_deficit := []
    all_inflow := [60, 90]
    all_outflow := []
    timestep := 0
    current_date := 0
    timestep_size := 1 }

/-- The spec's reservoir history invariant: the storage vector holds one more
entry than the local step count, and the current stored water is its last
entry. -/
def ReservoirInv (res : Reservoir) : Prop :=
  res.storage_vector.length = res.timestep + 1 ∧
  res.storage_vector.getLast? = some res.stored_water

theorem getD_append_length (l : List ℚ) (v : ℚ) : (l ++ [v]).getD l.length 0 = v := by
  induction l with
  | nil => rfl
  | cons a l ih => simp [List.getD_cons_succ, ih]

theorem set_append_length (l : List ℚ) (v w : ℚ) : (l ++ [v]).set l.length w = l ++ [w] := by
  induction l with
  | nil => rfl
  | cons a l ih => simp [List.set, ih]

theorem reservoir_step_max_capacity (res : Reservoir) (action : List ℚ) :
    ((res.step action).1).max_capacity = res.max_capacity := rfl

/-- C2: after a step, `is_terminated` is true exactly when the stored water
has left `[0, max_capacity]` (where `max_capacity` is the construction
argument, unchanged by stepping), and false exactly when it lies within. -/
theorem reservoir_terminated_iff_storage_outside_bounds (res : Reservoir) (action : List ℚ) :
    (((res.step action).1).is_terminated = true ↔
      ((res.step action).1).stored_water > res.max_capacity ∨
        ((res.step action).1).stored_water < 0) ∧
    (((res.step action).1).is_terminated = false ↔
      0 ≤ ((res.step action).1).stored_water ∧
        ((res.step action).1).stored_water ≤ res.max_capacity) := by
  have hcap : ((res.step action).1).max_capacity = res.max_capacity := rfl
  constructor
  · rw [Reservoir.is_terminated, hcap]
    simp
  · rw [Reservoir.is_terminated, hcap]
    simp [not_or, not_lt]
    exact and_comm

/-- C4: `set_inflow` appends at the current length, accumulates below it
(writing 5 then 3 into a fresh slot leaves 8), and fails with `IndexError`
beyond it, leaving the ledger untouched (the error branch carries no
modified state). -/
theorem set_inflow_append_accumulate_or_fail (l : List ℚ) (t : ℕ) (v : ℚ) :
    (t = l.length → set_inflow l t v = Except.ok (l ++ [v])) ∧
    (t < l.length → set_inflow l t v = Except.ok (l.set t (l.getD t 0 + v))) ∧
    (l.length < t → set_inflow l t v = Except.error "IndexError") ∧
    (t = l.length →
      (set_inflow l t 5).bind (fun l1 => set_inflow l1 t 3) = Except.ok (l ++ [8])) := by
  refine ⟨?_, ?_, ?_, ?_⟩
  · intro h
    simp [set_inflow, h]
  · intro h
    have h1 : ¬ l.length = t := by omega
    simp [set_inflow, h1, h]
  · intro h
    have h1 : ¬ l.length = t := by omega
    have h2 : ¬ t < l.length := by omega
    simp [set_inflow, h1, h2]
  · intro h
    subst h
    have h1 : ¬ (l ++ [(5 : ℚ)]).length = l.length := by simp
    have h2 : l.length < (l ++ [(5 : ℚ)]).length := by simp
    simp [set_inflow, h1, h2, Except.bind, getD_append_length, set_append_length]
    norm_num

theorem set_inflow_witness :
    set_inflow [] 0 (5 : ℚ) = Except.ok [5] ∧
    set_inflow [(5 : ℚ)] 0 3 = Except.ok [8] ∧
    set_inflow ([] : List ℚ) 2 7 = Except.error "IndexError" ∧
    (set_inflow ([] : List ℚ) 0 5).bind (fun l1 => set_inflow l1 0 3) = Except.ok [8] := by
  refine ⟨?_, ?_, ?_, ?_⟩
  · exact (set_inflow_append_accumulate_or_fail [] 0 5).1 rfl
  · refine ((set_inflow_append_accumulate_or_fail [5] 0 3).2.1 (by decide)).trans ?_
    norm_num [List.getD, List.set]
  · exact (set_inflow_append_accumulate_or_fail [] 2 7).2.2.1 (by decide)
  · exact (set_inflow_append_accumulate_or_fail [] 0 5).2.2.2 rfl

/-- C8: energy production for a step is min(rated capacity, clamped turbine
flow × head × 1000 × g × efficiency × 1e-6) × hours in the timestep, with
head = max(0, latest reservoir level − head_start_level) and level 0 when
the reservoir has recorded no level; the value is appended to the production
history and handed to the reward function. -/
theorem power_plant_production_formula (p : PowerPlant) (levels : List ℚ) :
    (p.determine_production levels).2 =
      min p.max_capacity
        (max p.min_turbine_flow (min p.max_turbine_flow (p.all_inflow.getD p.timestep 0)) *
          max 0 (levels.getLastD 0 - p.head_start_level) * 1000 * gravity * p.efficiency *
          (1 / 1000000)) *
        (p.timestep_size / 3600) ∧
    (p.determine_production levels).1.production_vector =
      p.production_vector ++ [(p.determine_production levels).2] ∧
    (p.determine_reward levels).2 = p.objective_function ((p.determine_production levels).2) := by
  have h : p.current_date + p.timestep_size - p.current_date = p.timestep_size := by ring
  refine ⟨?_, rfl, rfl⟩
  simp only [PowerPlant.determine_production, PowerPlant.determine_turbine_flow,
    PowerPlant.get_inflow, h]

/-- C9 (amended): the irrigation district consumes min(demand, inflow) with
demand cycling through the schedule by timestep mod its length;
`determine_deficit` records demand − consumption in the deficit history and
running total; because consumption is capped by demand the deficit is never
negative, so the schedule [100, 80] against inflows [60, 90] gives deficits
[40, 0] and total 40 (not [40, -10] / 30 as the claim's example says); a
step reports truncation exactly when the local step counter has reached the
schedule length. -/
theorem irrigation_deficit_spec (d : IrrigationDistrict) :
    ((d.determine_deficit).2 =
      d.get_current_demand - min d.get_current_demand (d.all_inflow.getD d.timestep 0)) ∧
    (d.determine_deficit).1.all_deficit = d.all_deficit ++ [(d.determine_deficit).2] ∧
    (d.determine_deficit).1.total_deficit = d.total_deficit + (d.determine_deficit).2 ∧
    d.determine_consumption =
      min (d.all_demand.getD (d.timestep % d.all_demand.length) 0)
        (d.all_inflow.getD d.timestep 0) ∧
    ((d.step).2.2.2 = true ↔ d.all_demand.length ≤ d.timestep) ∧
    (let e1 := exampleDeficitDistrict.determine_deficit
     let d1 := { e1.1 with timestep := 1 }
     let e2 := d1.determine_deficit
     e2.1.all_deficit = [40, 0] ∧ e2.1.total_deficit = 40) := by
  refine ⟨rfl, rfl, rfl, rfl, ?_, ?_⟩
  · simp [IrrigationDistrict.step, IrrigationDistrict.is_truncated]
  · simp only [IrrigationDistrict.determine_deficit, IrrigationDistrict.get_current_demand,
      IrrigationDistrict.determine_consumption, IrrigationDistrict.get_inflow,
      exampleDeficitDistrict]
    norm_num [List.getD, min_def]

/-- C9, counterexample to the claim's example clause: the code's deficit is
demand − min(demand, inflow), which cannot go negative, so the claimed
deficits [40, -10] with total 30 for schedule [100, 80] and inflows [60, 90]
do not occur; the code produces [40, 0] with total 40. -/
theorem irrigation_deficit_example_refuted :
    (let e1 := exampleDeficitDistrict.determine_deficit
     let d1 := { e1.1 with timestep := 1 }
     let e2 := d1.determine_deficit
     e2.1.all_deficit = [40, 0] ∧ e2.1.total_deficit = 40 ∧
       e2.1.all_deficit ≠ [40, -10] ∧ e2.1.total_deficit ≠ 30) := by
  simp only [IrrigationDistrict.determine_deficit, IrrigationDistrict.get_current_demand,
    IrrigationDistrict.determine_consumption, IrrigationDistrict.get_inflow,
    exampleDeficitDistrict]
  norm_num [List.getD, min_def]

theorem reservoir_step_storage_vector (res : Reservoir) (action : List ℚ) :
    ((res.step action).1).storage_vector =
      res.storage_vector ++ [((res.step action).1).stored_water] := rfl

theorem reservoir_step_timestep (res : Reservoir) (action : List ℚ) :
    ((res.step action).1).timestep = res.timestep + 1 := rfl

/-- C7: the storage vector always holds one more entry than the local step
count (the seed being the construction-time storage) and ends in the current
stored water: this holds after construction, is preserved by every step, and
holds after every reset. -/
theorem reservoir_storage_history_invariant :
    (∀ (name : String) (f : ℚ → ℚ) (its : ℚ) (ev : List ℚ)
        (mm : List ℚ × List ℚ × List ℚ) (lv sf : List ℚ × List ℚ)
        (obj : String) (mc sw : ℚ) (sp : Bool),
      ReservoirInv (Reservoir.init name f its ev mm lv sf obj mc sw sp)) ∧
    (∀ (res : Reservoir) (action : List ℚ),
      ReservoirInv res → ReservoirInv ((res.step action).1)) ∧
    (∀ res : Reservoir, ReservoirInv res.reset) := by
  refine ⟨fun _ _ _ _ _ _ _ _ _ _ _ => ⟨rfl, rfl⟩, ?_, fun res => ⟨rfl, rfl⟩⟩
  intro res action h
  constructor
  · rw [reservoir_step_storage_vector, reservoir_step_timestep]
    simp [h.1]
  · rw [reservoir_step_storage_vector]
    simp

theorem reservoir_storage_history_invariant_witness :
    ReservoirInv ((exampleReservoir.step [20]).1) :=
  reservoir_storage_history_invariant.2.1 exampleReservoir [20] ⟨rfl, rfl⟩

theorem resLoop_sub_releases_eq (res : Reservoir) (e i t f : ℚ) :
    ∀ (fuel : ℕ) (current storage : ℚ) (subs : List ℚ),
      (resLoop res e i t f fuel current storage subs).2.2
        = subs ++ (resLoopStorages res e i t f fuel current storage).map
            (fun s => min (res.storage_to_minmax s).2 (max (res.storage_to_minmax s).1 t)) := by
  intro fuel
  induction fuel with
  | zero => intro current storage subs; simp [resLoop, resLoopStorages]
  | succ n ih =>
    intro current storage subs
    by_cases h : current < f
    · simp only [resLoop, resLoopStorages, if_pos h]
      rw [ih]
      simp
    · simp [resLoop, resLoopStorages, if_neg h]

/-- C5: every per-increment release is the total action clamped into the
min/max release bounds interpolated at the storage current at that
increment, and the release reported for the macro timestep (returned and
appended to the release history) is the arithmetic mean (sum over count) of
those clamped sub-releases. -/
theorem reservoir_release_is_mean_of_clamped_sub_releases (res : Reservoir) (actions : List ℚ) :
    res.sub_releases actions =
      (res.sub_storages actions).map
        (fun s => min (res.storage_to_minmax s).2
          (max (res.storage_to_minmax s).1 actions.sum)) ∧
    (res.determine_outflow actions).2 =
      (res.sub_releases actions).sum / ((res.sub_releases actions).length : ℚ) ∧
    ((res.determine_outflow actions).1).release_vector =
      res.release_vector ++ [(res.determine_outflow actions).2] := by
  refine ⟨?_, rfl, rfl⟩
  have h := resLoop_sub_releases_eq res res.evaporation_rate_per_second
    (res.get_inflow res.timestep) actions.sum res.final_date res.loopFuel
    res.current_date (res.storage_vector.getLastD 0) []
  simpa [Reservoir.sub_releases, Reservoir.sub_storages] using h

theorem evap_rate_zero (res : Reservoir) (h : ∀ e ∈ res.evap_rates, e = 0) :
    res.evaporation_rate_per_second = 0 := by
  unfold Reservoir.evaporation_rate_per_second
  rcases Nat.lt_or_ge res.determine_month res.evap_rates.length with hlt | hge
  · rw [List.getD_eq_getElem _ _ hlt, h _ (List.getElem_mem hlt)]
    simp
  · rw [List.getD_eq_default _ _ hge]
    simp

theorem resLoop_mass_balance (res : Reservoir) (inflow r final : ℚ) :
    ∀ (fuel : ℕ) (current storage : ℚ) (subs : List ℚ),
      (∀ s ∈ resLoopStorages res 0 inflow r final fuel current storage,
        (res.storage_to_minmax s).1 ≤ r ∧ r ≤ (res.storage_to_minmax s).2) →
      (resLoop res 0 inflow r final fuel current storage subs).2.1
        = storage + (inflow - r) *
            ((resLoop res 0 inflow r final fuel current storage subs).1 - current) := by
  intro fuel
  induction fuel with
  | zero =>
    intro current storage subs _
    simp only [resLoop]
    ring
  | succ n ih =>
    intro current storage subs h
    by_cases hc : current < final
    · simp only [resLoopStorages, if_pos hc] at h
      obtain ⟨hmin, hmax⟩ := h storage (List.mem_cons_self _ _)
      have hrel : min (res.storage_to_minmax storage).2
          (max (res.storage_to_minmax storage).1 r) = r := by
        rw [max_eq_right hmin, min_eq_right hmax]
      rw [hrel] at h
      simp only [resLoop, if_pos hc, hrel]
      rw [ih _ _ _ (fun s hs => h s (List.mem_cons_of_mem _ hs))]
      ring
    · simp only [resLoop, if_neg hc]
      ring

theorem resLoop_final_date (res : Reservoir) (e i t final : ℚ)
    (hinc : 0 < res.integration_timestep_size) :
    ∀ (fuel : ℕ) (current storage : ℚ) (subs : List ℚ),
      current ≤ final →
      (⌈(final - current) / res.integration_timestep_size⌉).toNat ≤ fuel →
      (resLoop res e i t final fuel current storage subs).1 = final := by
  intro fuel
  induction fuel with
  | zero =>
    intro current storage subs hle hfuel
    have h1 : ⌈(final - current) / res.integration_timestep_size⌉ ≤ 0 := by omega
    have h2 : (final - current) / res.integration_timestep_size ≤ ((0 : ℤ) : ℚ) :=
      Int.ceil_le.mp h1
    have h3 : final - current ≤ 0 := by
      by_contra hpos
      push_neg at hpos
      have := div_pos hpos hinc
      push_cast at h2
      linarith
    have h4 : current = final := le_antisymm hle (by linarith)
    simp only [resLoop]
    exact h4
  | succ n ih =>
    intro current storage subs hle hfuel
    by_cases hc : current < final
    · simp only [resLoop, if_pos hc]
      apply ih
      · exact min_le_left _ _
      · rcases le_or_lt final (current + res.integration_timestep_size) with hcase | hcase
        · rw [min_eq_left hcase]
          simp
        · rw [min_eq_right (le_of_lt hcase)]
          have hne : res.integration_timestep_size ≠ 0 := ne_of_gt hinc
          have key : (final - (current + res.integration_timestep_size)) /
              res.integration_timestep_size
              = (final - current) / res.integration_timestep_size - 1 := by
            field_simp
            ring
          rw [key, Int.ceil_sub_one]
          omega
    · simp only [resLoop, if_neg hc]
      exact le_antisymm hle (not_lt.mp hc)

/-- C1: with all-zero evaporation rates, a single-component action r that is
feasible at the storage of every sub-increment, and per-timestep inflow rate
q, one outflow computation over the macro timestep of duration
timestep_size seconds ends with storage = initial + q·D − r·D; moreover
every pass of the sub-step loop updates the storage by
previous + inflow·Δ − evaporation − release·Δ for its increment length Δ. -/
theorem reservoir_mass_balance_zero_evaporation (res : Reservoir) (q r : ℚ)
    (hev : ∀ e ∈ res.evap_rates, e = 0)
    (hq : res.get_inflow res.timestep = q)
    (hts : 0 < res.timestep_size)
    (hinc : 0 < res.integration_timestep_size)
    (hfeas : ∀ s ∈ res.sub_storages [r],
      (res.storage_to_minmax s).1 ≤ r ∧ r ≤ (res.storage_to_minmax s).2) :
    ((res.determine_outflow [r]).1).stored_water
      = res.storage_vector.getLastD 0 + q * res.timestep_size - r * res.timestep_size ∧
    (∀ (e i t final : ℚ) (fuel : ℕ) (current storage : ℚ) (subs : List ℚ),
      current < final →
      resLoop res e i t final (fuel + 1) current storage subs
        = resLoop res e i t final fuel
            (min final (current + res.integration_timestep_size))
            (storage
              + i * (min final (current + res.integration_timestep_size) - current)
              - res.storage_to_surface storage
                  * (e * (min final (current + res.integration_timestep_size) - current))
              - min (res.storage_to_minmax storage).2 (max (res.storage_to_minmax storage).1 t)
                  * (min final (current + res.integration_timestep_size) - current))
            (subs ++ [min (res.storage_to_minmax storage).2
              (max (res.storage_to_minmax storage).1 t)])) := by
  constructor
  · have hev0 := evap_rate_zero res hev
    have hsum : ([r] : List ℚ).sum = r := by simp
    have hshape : ((res.determine_outflow [r]).1).stored_water
        = (resLoop res res.evaporation_rate_per_second (res.get_inflow res.timestep)
            (List.sum [r]) res.final_date res.loopFuel res.current_date
            (res.storage_vector.getLastD 0) []).2.1 := rfl
    rw [hshape, hev0, hq, hsum]
    simp only [Reservoir.sub_storages, hev0, hq, hsum] at hfeas
    rw [resLoop_mass_balance res q r res.final_date res.loopFuel res.current_date
      (res.storage_vector.getLastD 0) [] hfeas]
    rw [resLoop_final_date res 0 q r res.final_date hinc res.loopFuel res.current_date
      (res.storage_vector.getLastD 0) []
      (by simp only [Reservoir.final_date]; linarith) (le_of_eq rfl)]
    have hdur : res.final_date - res.current_date = res.timestep_size := by
      simp only [Reservoir.final_date]
      ring
    rw [hdur]
    ring
  · intro e i t final fuel current storage subs hc
    simp only [resLoop, if_pos hc]

theorem exampleReservoir_loopFuel : exampleReservoir.loopFuel = 4 := by
  show (⌈((0 : ℚ) + 3600 - 0) / 900⌉).toNat = 4
  norm_num
  rfl

theorem exampleReservoir_sub_storages :
    exampleReservoir.sub_storages [20] = [100, 9100, 18100, 27100] := by
  unfold Reservoir.sub_storages
  rw [exampleReservoir_loopFuel]
  norm_num [resLoopStorages, Reservoir.evaporation_rate_per_second, Reservoir.final_date,
    Reservoir.determine_month, Reservoir.get_inflow, Reservoir.storage_to_surface,
    Reservoir.storage_to_minmax, modified_interp, interpSegs, lastPair,
    exampleReservoir, Reservoir.init, List.getD, min_def, max_def]

theorem exampleReservoir_feasible :
    ∀ s ∈ exampleReservoir.sub_storages [20],
      (exampleReservoir.storage_to_minmax s).1 ≤ 20 ∧
        20 ≤ (exampleReservoir.storage_to_minmax s).2 := by
  rw [exampleReservoir_sub_storages]
  intro s hs
  simp only [List.mem_cons, List.not_mem_nil, or_false] at hs
  rcases hs with rfl | rfl | rfl | rfl <;>
    norm_num [Reservoir.storage_to_minmax, modified_interp, interpSegs, lastPair,
      exampleReservoir, Reservoir.init, min_def, max_def]

theorem reservoir_mass_balance_witness :
    ((exampleReservoir.determine_outflow [20]).1).stored_water = 36100 := by
  have h := (reservoir_mass_balance_zero_evaporation exampleReservoir 30 20
    (by intro e he; simp [exampleReservoir, Reservoir.init] at he; exact he)
    (by simp [Reservoir.get_inflow, exampleReservoir, Reservoir.init])
    (by rw [show exampleReservoir.timestep_size = (3600 : ℚ) from rfl]; norm_num)
    (by rw [show exampleReservoir.integration_timestep_size = (900 : ℚ) from rfl]; norm_num)
    exampleReservoir_feasible).1
  rw [h, show exampleReservoir.storage_vector = [(100 : ℚ)] from rfl,
    show exampleReservoir.timestep_size = (3600 : ℚ) from rfl]
  norm_num [List.getLastD]

theorem stepLoop_drop (date : ℚ) (action : String → List ℚ) :
    ∀ (remaining processed : List Node) (obs rew : List (String × ℚ)) (term trunc : Bool),
      (stepLoop date action processed remaining obs rew term trunc).1.drop
          (processed.length + stepLoopCount date action processed remaining term trunc)
        = remaining.drop (stepLoopCount date action processed remaining term trunc) := by
  intro remaining
  induction remaining with
  | nil =>
    intro processed obs rew term trunc
    simp [stepLoop, stepLoopCount]
  | cons node rest ih =>
    intro processed obs rew term trunc
    simp only [stepLoop, stepLoopCount]
    generalize (Node.step (node.set_current_date date) action
      (processed ++ node.set_current_date date :: rest)) = out
    by_cases h : ((term || out.2.2.2.1) || (trunc || out.2.2.2.2)) = true
    · simp only [if_pos h]
      have hsplit : processed ++ out.1 :: rest = (processed ++ [out.1]) ++ rest := by simp
      rw [hsplit, show processed.length + 1 = (processed ++ [out.1]).length by simp,
        List.drop_left]
      simp
    · simp only [if_neg h]
      rw [show processed.length + (stepLoopCount date action (processed ++ [out.1]) rest
          (term || out.2.2.2.1) (trunc || out.2.2.2.2) + 1)
        = (processed ++ [out.1]).length + stepLoopCount date action (processed ++ [out.1]) rest
            (term || out.2.2.2.1) (trunc || out.2.2.2.2) by simp; omega]
      rw [List.drop_succ_cons]
      exact ih _ _ _ _ _

theorem stepLoopCount_full (date : ℚ) (action : String → List ℚ) :
    ∀ (remaining processed : List Node) (obs rew : List (String × ℚ)) (term trunc : Bool),
      ((stepLoop date action processed remaining obs rew term trunc).2.2.2.1 ||
        (stepLoop date action processed remaining obs rew term trunc).2.2.2.2) = false →
      stepLoopCount date action processed remaining term trunc = remaining.length := by
  intro remaining
  induction remaining with
  | nil =>
    intro processed obs rew term trunc _
    simp [stepLoopCount]
  | cons node rest ih =>
    intro processed obs rew term trunc hflag
    simp only [stepLoop, stepLoopCount] at hflag ⊢
    revert hflag
    generalize (Node.step (node.set_current_date date) action
      (processed ++ node.set_current_date date :: rest)) = out
    intro hflag
    by_cases h : ((term || out.2.2.2.1) || (trunc || out.2.2.2.2)) = true
    · rw [if_pos h] at hflag
      simp [h] at hflag
    · rw [if_neg h] at hflag
      rw [if_neg h, ih _ _ _ _ _ hflag]
      simp

/-- C6: during a `WaterManagementSystem.step`, nodes after the point where
the loop stops (the first node reporting termination or truncation, when
one exists) are left untouched — their histories and counters are exactly
the pre-step ones — while the orchestrator's global timestep counter and
clock still advance by one timestep after the loop; when no node raises a
flag the loop steps the whole list. -/
theorem wms_step_short_circuit (wms : WaterManagementSystem) (action : String → List ℚ) :
    ((wms.step action).1).timestep = wms.timestep + 1 ∧
    ((wms.step action).1).current_date = wms.current_date + wms.timestep_size ∧
    ((wms.step action).1).water_systems.drop (wms.stepCount action)
      = wms.water_systems.drop (wms.stepCount action) ∧
    (((wms.step action).2.2.2.1 || (wms.step action).2.2.2.2) = false →
      wms.stepCount action = wms.water_systems.length) := by
  refine ⟨rfl, rfl, ?_, ?_⟩
  · have h := stepLoop_drop wms.current_date action wms.water_systems [] []
      (wms.rewards.map (fun kv => (kv.1, (0 : ℚ)))) false false
    simpa [WaterManagementSystem.stepCount] using h
  · intro hflag
    exact stepLoopCount_full _ _ _ _ _ _ _ _ hflag

theorem wms_step_short_circuit_witness :
    ((exampleDistrictSystem.step (fun _ => [])).1).timestep = 1 ∧
    exampleDistrictSystem.stepCount (fun _ => []) = 1 := by
  refine ⟨(wms_step_short_circuit exampleDistrictSystem (fun _ => [])).1, ?_⟩
  have h := (wms_step_short_circuit exampleDistrictSystem (fun _ => [])).2.2.2 rfl
  exact h.trans rfl

/-- C3, code-bug exhibit: `WaterManagementSystem.reset` computes the
observation it returns (source line 79) before resetting the nodes (source
lines 84-86).  On a one-reservoir system (initial storage 100, inflow 30,
timestep 3600 s, release action 20) one step moves the storage to 36100;
the subsequent reset correctly restores every node history to its
episode-zero value, yet returns the stale pre-reset observation [36100]
instead of the construction-time observation [100]. -/
theorem wms_reset_returns_stale_observation :
    exampleSystem.observation = [100] ∧
    (let s := exampleSystem.step (fun _ => [20])
     let r := s.1.reset
     r.2 = [36100] ∧
     r.2 ≠ exampleSystem.observation ∧
     r.1.water_systems.map Node.storage_vector = [[100]] ∧
     r.1.water_systems.map Node.level_vector = [[]] ∧
     r.1.water_systems.map Node.release_vector = [[]] ∧
     r.1.water_systems.map Node.timestep = [0] ∧
     r.1.timestep = 0) := by
  refine ⟨rfl, ?_⟩
  norm_num [exampleSystem, exampleReservoir, Reservoir.init, WaterManagementSystem.init,
    WaterManagementSystem.step, WaterManagementSystem.reset, stepLoop, Node.step,
    Node.set_current_date, Node.set_timestep_size, Node.name, Node.objective_name,
    Node.reset, Node.storage_vector, Node.level_vector, Node.release_vector, Node.timestep,
    Reservoir.step, Reservoir.determine_outflow, Reservoir.reset, Reservoir.determine_observation,
    Reservoir.determine_reward, Reservoir.is_terminated, Reservoir.get_inflow,
    Reservoir.evaporation_rate_per_second, Reservoir.final_date, Reservoir.determine_month,
    Reservoir.loopFuel, Reservoir.storage_to_surface, Reservoir.storage_to_minmax,
    Reservoir.storage_to_level, resLoop, modified_interp, interpSegs, lastPair,
    determineObservationList, assocSet, assocAdd, List.getD, min_def, max_def,
    Int.toNat_ofNat, decide_False, decide_True, List.filterMap_cons, List.filterMap_nil]

theorem chain_zip (xr : List ℚ) : ∀ (yr : List ℚ) (x0 y0 : ℚ),
    List.Chain' (· < ·) (x0 :: xr) → List.Chain' (· ≤ ·) (y0 :: yr) →
    xr.length = yr.length →
    List.Chain (fun a b : ℚ × ℚ => a.1 < b.1 ∧ a.2 ≤ b.2) (x0, y0) (xr.zip yr) := by
  induction xr with
  | nil =>
    intro yr x0 y0 _ _ hlen
    have : yr = [] := List.length_eq_zero.mp hlen.symm
    subst this
    exact List.Chain.nil
  | cons x1 xr ih =>
    intro yr x0 y0 hx hy hlen
    cases yr with
    | nil => simp at hlen
    | cons y1 yr =>
      rw [List.chain'_cons] at hx hy
      exact List.Chain.cons ⟨hx.1, hy.1⟩ (ih yr x1 y1 hx.2 hy.2 (by simpa using hlen))

theorem chain_zipX (xr : List ℚ) : ∀ (yr : List ℚ) (x0 y0 : ℚ),
    List.Chain' (· < ·) (x0 :: xr) → xr.length = yr.length →
    List.Chain (fun a b : ℚ × ℚ => a.1 < b.1) (x0, y0) (xr.zip yr) := by
  induction xr with
  | nil =>
    intro yr x0 y0 _ hlen
    have : yr = [] := List.length_eq_zero.mp hlen.symm
    subst this
    exact List.Chain.nil
  | cons x1 xr ih =>
    intro yr x0 y0 hx hlen
    cases yr with
    | nil => simp at hlen
    | cons y1 yr =>
      rw [List.chain'_cons] at hx
      exact List.Chain.cons hx.1 (ih yr x1 y1 hx.2 (by simpa using hlen))

theorem chain_le_lastPair : ∀ (rest : List (ℚ × ℚ)) (x0 y0 : ℚ),
    List.Chain (fun a b : ℚ × ℚ => a.1 < b.1 ∧ a.2 ≤ b.2) (x0, y0) rest →
    x0 ≤ (lastPair x0 y0 rest).1 ∧ y0 ≤ (lastPair x0 y0 rest).2 := by
  intro rest
  induction rest with
  | nil => intro x0 y0 _; exact ⟨le_refl _, le_refl _⟩
  | cons p r ih =>
    obtain ⟨x1, y1⟩ := p
    intro x0 y0 hch
    rw [List.chain_cons] at hch
    have hlp : lastPair x0 y0 ((x1, y1) :: r) = lastPair x1 y1 r := by
      simp only [lastPair]
      exact List.getLastD_cons _ _ _
    rw [hlp]
    obtain ⟨hr1, hr2⟩ := ih x1 y1 hch.2
    exact ⟨le_trans (le_of_lt hch.1.1) hr1, le_trans hch.1.2 hr2⟩

theorem chainX_le_lastPair : ∀ (rest : List (ℚ × ℚ)) (x0 y0 : ℚ),
    List.Chain (fun a b : ℚ × ℚ => a.1 < b.1) (x0, y0) rest →
    x0 ≤ (lastPair x0 y0 rest).1 := by
  intro rest
  induction rest with
  | nil => intro x0 y0 _; exact le_refl _
  | cons p r ih =>
    obtain ⟨x1, y1⟩ := p
    intro x0 y0 hch
    rw [List.chain_cons] at hch
    have hlp : lastPair x0 y0 ((x1, y1) :: r) = lastPair x1 y1 r := by
      simp only [lastPair]
      exact List.getLastD_cons _ _ _
    rw [hlp]
    exact le_trans (le_of_lt hch.1) (ih x1 y1 hch.2)

theorem lastPair_zip (xr : List ℚ) : ∀ (yr : List ℚ) (x0 y0 : ℚ),
    xr.length = yr.length →
    lastPair x0 y0 (xr.zip yr) = ((x0 :: xr).getLastD 0, (y0 :: yr).getLastD 0) := by
  induction xr with
  | nil =>
    intro yr x0 y0 hlen
    have : yr = [] := List.length_eq_zero.mp hlen.symm
    subst this
    simp [lastPair]
  | cons x1 xr ih =>
    intro yr x0 y0 hlen
    cases yr with
    | nil => simp at hlen
    | cons y1 yr =>
      have hzip : (x1 :: xr).zip (y1 :: yr) = (x1, y1) :: xr.zip yr := rfl
      rw [hzip]
      have hlp : lastPair x0 y0 ((x1, y1) :: xr.zip yr) = lastPair x1 y1 (xr.zip yr) := by
        simp only [lastPair]
        exact List.getLastD_cons _ _ _
      rw [hlp, ih yr x1 y1 (by simpa using hlen)]
      simp [List.getLastD_cons]

theorem interpSegs_lb (x : ℚ) : ∀ (rest : List (ℚ × ℚ)) (x0 y0 : ℚ),
    List.Chain (fun a b : ℚ × ℚ => a.1 < b.1 ∧ a.2 ≤ b.2) (x0, y0) rest →
    x0 ≤ x → y0 ≤ interpSegs x x0 y0 rest := by
  intro rest
  induction rest with
  | nil => intro x0 y0 _ _; simp [interpSegs]
  | cons p r ih =>
    obtain ⟨x1, y1⟩ := p
    intro x0 y0 hch hx
    rw [List.chain_cons] at hch
    obtain ⟨⟨hx01, hy01⟩, hch2⟩ := hch
    simp only [interpSegs]
    by_cases h : x ≤ x1
    · rw [if_pos h]
      have hd : 0 ≤ (y1 - y0) * (x - x0) / (x1 - x0) :=
        div_nonneg (mul_nonneg (by linarith) (by linarith)) (by linarith)
      linarith
    · rw [if_neg h]
      exact le_trans hy01 (ih x1 y1 hch2 (by push_neg at h; linarith))

theorem interpSegs_at_last (x : ℚ) : ∀ (rest : List (ℚ × ℚ)) (x0 y0 : ℚ),
    List.Chain (fun a b : ℚ × ℚ => a.1 < b.1 ∧ a.2 ≤ b.2) (x0, y0) rest →
    (lastPair x0 y0 rest).1 ≤ x →
    interpSegs x x0 y0 rest = (lastPair x0 y0 rest).2 := by
  intro rest
  induction rest with
  | nil => intro x0 y0 _ _; simp [interpSegs, lastPair]
  | cons p r ih =>
    obtain ⟨x1, y1⟩ := p
    intro x0 y0 hch hlast
    rw [List.chain_cons] at hch
    obtain ⟨⟨hx01, _⟩, hch2⟩ := hch
    have hlp : lastPair x0 y0 ((x1, y1) :: r) = lastPair x1 y1 r := by
      simp only [lastPair]
      exact List.getLastD_cons _ _ _
    rw [hlp] at hlast ⊢
    have hx1last := (chain_le_lastPair r x1 y1 hch2).1
    simp only [interpSegs]
    by_cases h : x ≤ x1
    · rw [if_pos h]
      cases r with
      | nil =>
        simp only [lastPair, List.getLastD] at hlast ⊢
        have hxx : x = x1 := le_antisymm h hlast
        have hne : x1 - x0 ≠ 0 := sub_ne_zero_of_ne (ne_of_gt hx01)
        rw [hxx, mul_div_assoc, div_self hne]
        ring
      | cons q r2 =>
        exfalso
        obtain ⟨qx, qy⟩ := q
        rw [List.chain_cons] at hch2
        have hq := (chain_le_lastPair r2 qx qy hch2.2).1
        have hlp2 : lastPair x1 y1 ((qx, qy) :: r2) = lastPair qx qy r2 := by
          simp only [lastPair]
          exact List.getLastD_cons _ _ _
        rw [hlp2] at hlast hx1last
        have := hch2.1.1
        linarith
    · rw [if_neg h]
      exact ih x1 y1 hch2 hlast

theorem interpSegs_mono (x x' : ℚ) (hxx : x ≤ x') : ∀ (rest : List (ℚ × ℚ)) (x0 y0 : ℚ),
    List.Chain (fun a b : ℚ × ℚ => a.1 < b.1 ∧ a.2 ≤ b.2) (x0, y0) rest →
    x0 ≤ x → interpSegs x x0 y0 rest ≤ interpSegs x' x0 y0 rest := by
  intro rest
  induction rest with
  | nil => intro x0 y0 _ _; simp [interpSegs]
  | cons p r ih =>
    obtain ⟨x1, y1⟩ := p
    intro x0 y0 hch hx0
    rw [List.chain_cons] at hch
    obtain ⟨⟨hx01, hy01⟩, hch2⟩ := hch
    simp only [interpSegs]
    by_cases h' : x' ≤ x1
    · have h : x ≤ x1 := le_trans hxx h'
      rw [if_pos h, if_pos h']
      have hmul : (y1 - y0) * (x - x0) ≤ (y1 - y0) * (x' - x0) :=
        mul_le_mul_of_nonneg_left (by linarith) (by linarith)
      have hdiv := (div_le_div_iff_of_pos_right (show (0 : ℚ) < x1 - x0 by linarith)).mpr hmul
      linarith
    · rw [if_neg h']
      push_neg at h'
      by_cases h : x ≤ x1
      · rw [if_pos h]
        have hmul : (y1 - y0) * (x - x0) ≤ (y1 - y0) * (x1 - x0) :=
          mul_le_mul_of_nonneg_left (by linarith) (by linarith)
        have hdiv := (div_le_div_iff_of_pos_right (show (0 : ℚ) < x1 - x0 by linarith)).mpr hmul
        have hne : x1 - x0 ≠ 0 := sub_ne_zero_of_ne (ne_of_gt hx01)
        have hcancel : (y1 - y0) * (x1 - x0) / (x1 - x0) = y1 - y0 := by
          rw [mul_div_assoc, div_self hne, mul_one]
        rw [hcancel] at hdiv
        have hge : y1 ≤ interpSegs x' x1 y1 r := interpSegs_lb x' r x1 y1 hch2 (le_of_lt h')
        linarith
      · rw [if_neg h]
        exact ih x1 y1 hch2 (by push_neg at h; linarith)

/-- C10: for a strictly increasing breakpoint curve the interpolation is a
pure function of its arguments (side-effect freedom is inherent in the
embedding); it is non-decreasing in the query when the y values are
non-decreasing, queries below the first breakpoint return the first y (or
the supplied left extrapolation value), and queries above the last
breakpoint return the last y (or the supplied right extrapolation value). -/
theorem modified_interp_monotone_and_clamped (xp fp : List ℚ) (x x' : ℚ)
    (left right : Option ℚ) :
    (List.Chain' (· < ·) xp → List.Chain' (· ≤ ·) fp → xp.length = fp.length →
      x ≤ x' → modified_interp x xp fp none none ≤ modified_interp x' xp fp none none) ∧
    (∀ x0 xr y0 yr, xp = x0 :: xr → fp = y0 :: yr → x < x0 →
      modified_interp x xp fp left right = left.getD y0) ∧
    (List.Chain' (· < ·) xp → xp.length = fp.length →
      ∀ x0 xr y0 yr, xp = x0 :: xr → fp = y0 :: yr → xp.getLastD 0 < x →
      modified_interp x xp fp left right = right.getD (fp.getLastD 0)) := by
  refine ⟨?_, ?_, ?_⟩
  · intro hxc hyc hlen hxx
    cases xp with
    | nil => simp [modified_interp]
    | cons x0 xr =>
      cases fp with
      | nil => simp at hlen
      | cons y0 yr =>
        simp only [modified_interp]
        have hch := chain_zip xr yr x0 y0 hxc hyc (by simpa using hlen)
        by_cases h1 : x < x0
        · rw [if_pos h1]
          by_cases h2 : x' < x0
          · rw [if_pos h2]
          · rw [if_neg h2]
            push_neg at h2
            by_cases h3 : (lastPair x0 y0 (xr.zip yr)).1 < x'
            · rw [if_pos h3]
              simpa using (chain_le_lastPair (xr.zip yr) x0 y0 hch).2
            · rw [if_neg h3]
              simpa using interpSegs_lb x' (xr.zip yr) x0 y0 hch h2
        · rw [if_neg h1]
          push_neg at h1
          have h1' : ¬ x' < x0 := by linarith
          rw [if_neg h1']
          by_cases h3 : (lastPair x0 y0 (xr.zip yr)).1 < x
          · have h3' : (lastPair x0 y0 (xr.zip yr)).1 < x' := by linarith
            rw [if_pos h3, if_pos h3']
          · rw [if_neg h3]
            push_neg at h3
            by_cases h4 : (lastPair x0 y0 (xr.zip yr)).1 < x'
            · rw [if_pos h4]
              have hm := interpSegs_mono x (lastPair x0 y0 (xr.zip yr)).1 h3
                (xr.zip yr) x0 y0 hch h1
              have hl := interpSegs_at_last (lastPair x0 y0 (xr.zip yr)).1
                (xr.zip yr) x0 y0 hch (le_refl _)
              have hfin : interpSegs x x0 y0 (xr.zip yr)
                  ≤ (lastPair x0 y0 (xr.zip yr)).2 := by linarith
              exact hfin
            · rw [if_neg h4]
              exact interpSegs_mono x x' hxx (xr.zip yr) x0 y0 hch h1
  · intro x0 xr y0 yr hxp hfp hlt
    subst hxp
    subst hfp
    simp only [modified_interp, if_pos hlt]
  · intro hxc hlen x0 xr y0 yr hxp hfp hgt
    subst hxp
    subst hfp
    have hchx := chain_zipX xr yr x0 y0 hxc (by simpa using hlen)
    have hlp := lastPair_zip xr yr x0 y0 (by simpa using hlen)
    have hx0 : x0 ≤ (lastPair x0 y0 (xr.zip yr)).1 := chainX_le_lastPair (xr.zip yr) x0 y0 hchx
    have hlast : (lastPair x0 y0 (xr.zip yr)).1 < x := by
      rw [hlp]
      exact hgt
    have h1 : ¬ x < x0 := by linarith
    simp only [modified_interp, if_neg h1, if_pos hlast]
    rw [hlp]

theorem modified_interp_witness :
    modified_interp (-1) [0, 10] [1, 5] none none ≤ modified_interp 3 [0, 10] [1, 5] none none ∧
    modified_interp (-1) [0, 10] [1, 5] (some 7) (some 9) = 7 ∧
    modified_interp 11 [0, 10] [1, 5] (some 7) (some 9) = 9 := by
  refine ⟨?_, ?_, ?_⟩
  · exact (modified_interp_monotone_and_clamped [0, 10] [1, 5] (-1) 3 none none).1
      (by norm_num) (by norm_num) rfl (by norm_num)
  · exact (modified_interp_monotone_and_clamped [0, 10] [1, 5] (-1) (-1) (some 7) (some 9)).2.1
      0 [10] 1 [5] rfl rfl (by norm_num)
  · have h := (modified_interp_monotone_and_clamped [0, 10] [1, 5] 11 11 (some 7) (some 9)).2.2
      (by norm_num) rfl 0 [10] 1 [5] rfl rfl (by norm_num [List.getLastD_cons])
    rw [h]
    norm_num [List.getLastD_cons]
